import Mathlib

/-!
Verification of the udplog event bus against its specification.

The definitions below are a shallow embedding of the udplog source:
  * `udplog/udplog.py`   -- event serialization, the `UDPLogger` sender
  * `udplog/twisted.py`  -- native ingress, dispatcher, bounded queue
  * `udplog/syslog.py`   -- syslog parsing and normalization
  * `udplog/redis.py`    -- multi-endpoint redis push client
  * `udplog/rabbitmq.py`, `udplog/datadog.py`, `udplog/scribe.py` -- sinks

Python dictionaries are modelled as insertion-ordered association lists;
JSON parsing and dumping (the external `simplejson` / `json` libraries)
are modelled as oracle functions passed in as parameters.
-/

/-- A timezone-aware datetime, as produced by `dateutil.parser.parse`
followed by `replace(tzinfo=...)` in `parseSyslog`. `offsetMinutes` is
the UTC offset of the attached timezone. -/
structure PyDateTime where
  year : Int
  month : Int
  day : Int
  hour : Int
  minute : Int
  second : Int
  offsetMinutes : Int
deriving DecidableEq, Repr

/-- Heterogeneous values held in an event dictionary (str, int, bool,
nested JSON structure, or a datetime as found in parsed syslog events
before normalization). -/
inductive Val where
  | null
  | bool (b : Bool)
  | num (n : Int)
  | str (s : String)
  | arr (elems : List Val)
  | obj (fields : List (String × Val))
  | dt (d : PyDateTime)

/-- An event dictionary: insertion-ordered mapping from field names to
values, as a Python `dict`. -/
abbrev Event : Type := List (String × Val)

/-- Python `d[k]` lookup (first binding wins). -/
def Event.get? (e : Event) (k : String) : Option Val :=
  (List.find? (fun p => p.1 = k) e).map Prod.snd

/-- Python `k in d`. -/
def Event.hasKey (e : Event) (k : String) : Bool :=
  List.any e (fun p => p.1 = k)

/-- Python `d[k] = v`: replace the first binding in place if the key
exists, append a new binding otherwise. -/
def Event.set (e : Event) (k : String) (v : Val) : Event :=
  match e with
  | [] => [(k, v)]
  | p :: rest => if p.1 = k then (k, v) :: rest else p :: Event.set rest k v

/-- Python `del d[k]`: remove the binding for `k`. -/
def Event.erase (e : Event) (k : String) : Event :=
  match e with
  | [] => []
  | p :: rest =>
    if p.1 = k then Event.erase rest k else p :: Event.erase rest k

/-- Python `d.setdefault(k, v)`. -/
def Event.setdefault (e : Event) (k : String) (v : Val) : Event :=
  if Event.hasKey e k then e else e ++ [(k, v)]

/-- Python `d.update(other)`. -/
def Event.update (e other : Event) : Event :=
  List.foldl (fun acc p => Event.set acc p.1 p.2) e other

/-- Whether an `Except` result models a raised exception. -/
def isErr : Except ε α → Bool
  | .error _ => true
  | .ok _ => false

/-! ## Dispatcher (`udplog/twisted.py`, `DispatcherFromUDPLogProtocol`)

Consumers are values of an arbitrary type `C`; their behaviour when
called with an event is given by a function `run` into `Except String
Unit` (`Except.error` models a raised exception). The Python `set` of
consumers is modelled as a duplicate-free list. -/

structure DispatcherFromUDPLogProtocol (C : Type) where
  consumers : List C

/-- `register`: `self._consumers.add(consumer)` (set semantics). -/
def DispatcherFromUDPLogProtocol.register [DecidableEq C]
    (d : DispatcherFromUDPLogProtocol C) (c : C) :
    DispatcherFromUDPLogProtocol C :=
  if c ∈ d.consumers then d else ⟨d.consumers ++ [c]⟩

/-- `unregister`: `self._consumers.remove(consumer)`, ignoring
`KeyError` for unknown consumers. -/
def DispatcherFromUDPLogProtocol.unregister [DecidableEq C]
    (d : DispatcherFromUDPLogProtocol C) (c : C) :
    DispatcherFromUDPLogProtocol C :=
  ⟨List.filter (fun x => ¬ x = c) d.consumers⟩

/-- Outcome of one dispatch: which consumers were called (in order) and
which raised an exception that got logged. -/
structure DispatchResult (C : Type) where
  calls : List C
  logged : List C

/-- The loop body of `eventReceived`:
`for consumer in self._consumers: try: consumer(event) except: log.err()`. -/
def dispatchLoop (run : C → Event → Except String Unit)
    (cs : List C) (event : Event) : DispatchResult C :=
  match cs with
  | [] => ⟨[], []⟩
  | c :: rest =>
    let r := dispatchLoop run rest event
    match run c event with
    | .ok _ => ⟨c :: r.calls, r.logged⟩
    | .error _ => ⟨c :: r.calls, c :: r.logged⟩

/-- `eventReceived`: dispatch one event to every registered consumer. -/
def DispatcherFromUDPLogProtocol.eventReceived
    (d : DispatcherFromUDPLogProtocol C)
    (run : C → Event → Except String Unit) (event : Event) :
    DispatchResult C :=
  dispatchLoop run d.consumers event

/-! ## Bounded queue (`udplog/twisted.py`, `QueueProducer`)

A push producer with a bounded FIFO (`collections.deque` with optional
`maxlen`). Items are put while the producer may be paused; on resume the
queue is drained one item at a time to the callback, each next step
scheduled on a zero-delay timer after the previous callback fires. -/

structure QueueProducer (α : Type) where
  paused : Bool
  pending : List α
  size : Option Nat
  waiting : Bool

/-- `__init__`: the producer starts paused with an empty queue;
`self.pending = deque(maxlen=size)`, `self.waiting = None`. -/
def QueueProducer.init (size : Option Nat) : QueueProducer α :=
  ⟨true, [], size, false⟩

/-- `deque.append` with an optional `maxlen`: when the deque is full the
oldest item (head) is discarded. -/
def dequeAppend (size : Option Nat) (q : List α) (x : α) : List α :=
  match size with
  | none => q ++ [x]
  | some n => List.drop (q.length + 1 - n) (q ++ [x])

/-- `put`: deliver directly to the callback when an idle waiter exists
and the producer is not paused (the second component is the directly
delivered item); otherwise append to the queue. -/
def QueueProducer.put (p : QueueProducer α) (x : α) :
    QueueProducer α × Option α :=
  if p.waiting ∧ p.paused = false then
    ({ p with waiting := false }, some x)
  else
    ({ p with pending := dequeAppend p.size p.pending x }, none)

/-- A sequence of `put` calls; collects the directly delivered items. -/
def putMany (p : QueueProducer α) (xs : List α) :
    QueueProducer α × List α :=
  List.foldl
    (fun (acc : QueueProducer α × List α) x =>
      let r := QueueProducer.put acc.1 x
      (r.1, acc.2 ++ r.2.toList))
    (p, []) xs

/-- `pauseProducing`: set the paused flag. -/
def QueueProducer.pauseProducing (p : QueueProducer α) : QueueProducer α :=
  { p with paused := true }

/-- `resumeProducing` clears the paused flag (and then calls
`_processQueue`; the drain itself is modelled by `drainAll`). -/
def QueueProducer.resumeProducing (p : QueueProducer α) : QueueProducer α :=
  { p with paused := false }

/-- `_processQueue` together with the zero-delay reschedule chain run to
completion (each delivered item's callback deferred fires and schedules
the next step): pop and deliver items while the queue is non-empty and
the producer is not paused; when the queue empties, an idle waiting
deferred is created if none exists. Returns the items delivered to the
callback, in order. -/
def drainAll (p : QueueProducer α) : List α × QueueProducer α :=
  if p.paused then ([], p)
  else
    match h : p.pending with
    | [] => ([], if p.waiting then p else { p with waiting := true })
    | x :: rest =>
      let r := drainAll { p with pending := rest }
      (x :: r.1, r.2)
termination_by p.pending.length
decreasing_by simp [h]

/-! ## Native ingress (`udplog/udplog.py` `unserialize`,
`udplog/twisted.py` `UDPLogProtocol.datagramReceived`)

A datagram is `CATEGORY ":" JSON`; `unserialize` splits on the first
colon and parses the right side as JSON. JSON parsing (`simplejson`) is
an oracle `loads : String → Option Val` (`none` models a raised
`JSONDecodeError`, a `ValueError`). -/

/-- Characters stripped by Python `str.rstrip()`. -/
def isPySpace (c : Char) : Bool :=
  c = ' ' || c = '\t' || c = '\n' || c = '\r'
    || c = Char.ofNat 11 || c = Char.ofNat 12

/-- Python `str.rstrip()`: remove trailing whitespace. -/
def pyRstrip (s : String) : String :=
  String.mk ((s.data.reverse.dropWhile isPySpace).reverse)

/-- Python two-way split on the first colon: `none` models the
`ValueError` raised by unpacking a one-element split result. -/
def splitFirstColon : List Char → Option (List Char × List Char)
  | [] => none
  | c :: cs =>
    if c = ':' then some ([], cs)
    else (splitFirstColon cs).map (fun p => (c :: p.1, p.2))

/-- The three ways a datagram fails to decode, as the spec names them.
In the source, `malformedFrame` is the `ValueError` raised by
the two-way colon split unpacking, `malformedJSON` the `ValueError` raised by
`simplejson.loads`, and `notAnObject` the `TypeError` raised by
`event[category-key] = category` on a non-dict; all three are caught by
`except (ValueError, TypeError)` and the datagram is dropped. -/
inductive DecodeError where
  | malformedFrame
  | malformedJSON
  | notAnObject
deriving DecidableEq, Repr

/-- `unserialize`: split the message on the first colon and parse the
right side as JSON; returns the category and the decoded value. -/
def unserialize (loads : String → Option Val) (msg : String) :
    Except DecodeError (String × Val) :=
  match splitFirstColon msg.data with
  | none => .error .malformedFrame
  | some (cat, data) =>
    match loads (String.mk data) with
    | none => .error .malformedJSON
    | some v => .ok (String.mk cat, v)

/-- `UDPLogProtocol.datagramReceived`: strip trailing whitespace,
unserialize, store the frame category into the event, and hand the
event on; on any decode error the datagram is dropped. -/
def datagramReceived (loads : String → Option Val) (datagram : String) :
    Except DecodeError Event :=
  match unserialize loads (pyRstrip datagram) with
  | .error e => .error e
  | .ok (category, .obj fields) =>
    .ok (Event.set fields "category" (.str category))
  | .ok (_, _) => .error .notAnObject

/-- The events handed to `eventReceived` (and hence the Dispatcher) for
one datagram: one event when the decode succeeds, none otherwise. -/
def datagramEvents (loads : String → Option Val) (datagram : String) :
    List Event :=
  match datagramReceived loads datagram with
  | .ok e => [e]
  | .error _ => []

/-- A concrete JSON-parsing oracle for ground instances. -/
def loadsDemo (s : String) : Option Val :=
  if s = "\tGOODBODY" then some (.obj [("key", .str "value")])
  else if s = "\tCATBODY" then
    some (.obj [("category", .str "spoof"), ("key", .str "value")])
  else if s = "\tNUMBODY" then some (.num 3)
  else none

/-! ## Syslog ingress (`udplog/syslog.py`)

The regex engine and `dateutil`/`calendar` are external libraries: a
successful `RE_SYSLOG` match is given as a `SyslogMatch` record of the
named groups, and the timestamp arithmetic is modelled from the
documented stdlib semantics. -/

def FACILITIES : List String :=
  ["kern", "user", "mail", "daemon", "auth", "syslog", "lpr", "news",
   "uucp", "cron", "authpriv", "ftp", "ntp", "audit", "alert", "at",
   "local0", "local1", "local2", "local3", "local4", "local5",
   "local6", "local7"]

def SEVERITIES : List String :=
  ["emerg", "alert", "crit", "err", "warn", "notice", "info", "debug"]

def LOG_LEVELS : List (String × String) :=
  [("emerg", "EMERGENCY"), ("alert", "ALERT"), ("crit", "CRITICAL"),
   ("err", "ERROR"), ("warn", "WARNING"), ("notice", "NOTICE"),
   ("info", "INFO"), ("debug", "DEBUG")]

/-- `parsePriority`: `divmod(priority, 8)` indexing into `FACILITIES`
and `SEVERITIES`; `none` models the `IndexError` raised for
out-of-range priorities. -/
def parsePriority (priority : Nat) : Option (String × String) :=
  match FACILITIES[priority / 8]?, SEVERITIES[priority % 8]? with
  | some f, some s => some (f, s)
  | _, _ => none

/-- The named groups of a successful `RE_SYSLOG` match. `timestamp` is
the result of `dateutil.parser.parse` on the timestamp group with the
configured timezone attached (`none` models the `ValueError` branch);
`content` is the full content group (message plus any CEE tail). -/
structure SyslogMatch where
  priority : Nat
  timestamp : Option PyDateTime
  hostname : String
  tag : String
  pid : Option String
  message : String
  cee : Option String
  content : String

/-- `parseSyslog` after the regex match: build the event dictionary
from the match groups; when the regex does not match (`matched = none`)
the entire line becomes the message. The CEE tail is parsed by the
`ceeLoads` oracle (`json.loads`); a parse failure restores the full
content as the message; a non-object value makes the uncaught
`dict.update` raise (modelled as `none`). -/
def parseSyslog (line : String) (matched : Option SyslogMatch)
    (ceeLoads : String → Option Val) : Option Event :=
  match matched with
  | none => some [("message", .str line)]
  | some m =>
    let e : Event := []
    let e := match parsePriority m.priority with
      | none => e
      | some (f, s) =>
        Event.set (Event.set e "facility" (.str f)) "severity" (.str s)
    let e := match m.timestamp with
      | none => e
      | some d => Event.set e "timestamp" (.dt d)
    let e := Event.set e "hostname" (.str m.hostname)
    let e := Event.set e "tag" (.str m.tag)
    let e := match m.pid with
      | none => e
      | some p => Event.set e "pid" (.str p)
    let e := Event.set e "message" (.str m.message)
    match m.cee with
    | none => some e
    | some ceeText =>
      if ceeText = "" then some e
      else
        match ceeLoads ceeText with
        | none => some (Event.set e "message" (.str m.content))
        | some (.obj fields) => some (Event.update e fields)
        | some _ => none

/-- Cumulative days before each month in a non-leap year. -/
def daysBeforeMonth : List Int :=
  [0, 31, 59, 90, 120, 151, 181, 212, 243, 273, 304, 334]

/-- Proleptic Gregorian leap-year rule. -/
def isLeapYear (y : Int) : Bool :=
  (y % 4 = 0 && ¬ y % 100 = 0) || y % 400 = 0

/-- Number of leap years strictly before year `y` (counted from the
epoch of the proleptic Gregorian calendar). -/
def leapYearsBefore (y : Int) : Int :=
  (y - 1) / 4 - (y - 1) / 100 + (y - 1) / 400

/-- Models `calendar.timegm(dt.utctimetuple())`: the datetime rendered
as POSIX seconds, subtracting the attached timezone's UTC offset. -/
def timegmUtctimetuple (d : PyDateTime) : Int :=
  let leapDays := leapYearsBefore d.year - leapYearsBefore 1970
  let mdays := (daysBeforeMonth[(d.month - 1).toNat]?).getD 0
    + (if 2 < d.month ∧ isLeapYear d.year then 1 else 0)
  let days := 365 * (d.year - 1970) + leapDays + mdays + (d.day - 1)
  days * 86400 + d.hour * 3600 + d.minute * 60 + d.second
    - d.offsetMinutes * 60

/-- First block of `syslogToUDPLogEvent`: an existing `timestamp` is
converted to POSIX seconds via UTC conversion (`none` models the
attribute error raised on a non-datetime value). -/
def tsConvert (e : Event) : Option Event :=
  if Event.hasKey e "timestamp" then
    match Event.get? e "timestamp" with
    | some (.dt d) =>
      some (Event.set e "timestamp" (.num (timegmUtctimetuple d)))
    | _ => none
  else some e

/-- `tag` renamed to `appname`. -/
def tagRename (e : Event) : Event :=
  if Event.hasKey e "tag" then
    match Event.get? e "tag" with
    | some v => Event.erase (Event.set e "appname" v) "tag"
    | none => e
  else e

/-- `severity` renamed to `logLevel` through the fixed `LOG_LEVELS`
table; `none` models the `KeyError` for severities outside it. -/
def sevRename (e : Event) : Option Event :=
  if Event.hasKey e "severity" then
    match Event.get? e "severity" with
    | some (.str s) =>
      match List.lookup s LOG_LEVELS with
      | some lvl =>
        some (Event.erase (Event.set e "logLevel" (.str lvl)) "severity")
      | none => none
    | _ => none
  else some e

/-- Optional hostname rewrite map. -/
def hostRewrite (hostnames : List (String × String)) (e : Event) :
    Event :=
  match Event.get? e "hostname" with
  | some (.str hn) =>
    match List.lookup hn hostnames with
    | some new => Event.set e "hostname" (.str new)
    | none => e
  | _ => e

/-- `syslogToUDPLogEvent`: normalize a parsed syslog event, in source
order: timestamp conversion, `category` default, `tag` rename,
`severity` rename, hostname rewrite. -/
def syslogToUDPLogEvent (eventDict : Event)
    (hostnames : List (String × String)) : Option Event :=
  match tsConvert eventDict with
  | none => none
  | some e1 =>
    let e2 := Event.setdefault e1 "category" (.str "syslog")
    let e3 := tagRename e2
    match sevRename e3 with
    | none => none
    | some e4 => some (hostRewrite hostnames e4)

/-! ## UDPLogger sender (`udplog/udplog.py`)

`simplejson.dumps` (with repr fallback and `skipkeys`) is an oracle
`dumps : Event → String`; the socket send is an oracle
`sendOk : String → Bool` (`false` models a raised `socket.error`, whose
captured traceback is the `failure` parameter). -/

def MAX_TRIMMED_MESSAGE_SIZE : Nat := 200

/-- A captured `twisted.python.failure.Failure`: rendered traceback,
qualified exception type and stringified value. -/
structure PyFailure where
  excText : String
  excType : String
  excValue : String

/-- Python `a or b` on strings (empty string is falsy). -/
def pyOr (a b : String) : String := if a = "" then b else a

/-- `augmentWithFailure`: attach the exception triple, default
`logLevel` to `ERROR`, and set `message` to the first truthy of `why`,
the exception value and the exception type. -/
def augmentWithFailure (eventDict : Event) (failure : PyFailure)
    (why : Option String) : Event :=
  let e := Event.set eventDict "excText" (.str failure.excText)
  let e := Event.set e "excType" (.str failure.excType)
  let e := Event.set e "excValue" (.str failure.excValue)
  let e := Event.setdefault e "logLevel" (.str "ERROR")
  Event.set e "message"
    (.str (pyOr (why.getD "") (pyOr failure.excValue failure.excType)))

/-- `UDPLogger.augment`: a fresh dict with `timestamp` defaulted to the
current time, updated with the logger's default fields, then the
event. -/
def UDPLogger.augment (now : Val) (defaultFields : Event)
    (eventDict : Event) : Event :=
  Event.update (Event.update (Event.setdefault [] "timestamp" now)
    defaultFields) eventDict

/-- `UDPLogger.serialize`: the framed datagram
`CATEGORY ":" TAB <json>`. -/
def UDPLogger.serialize (dumps : Event → String) (category : String)
    (eventDict : Event) : String :=
  category ++ ":\t" ++ dumps eventDict

/-- `text[:MAX_TRIMMED_MESSAGE_SIZE-4] + '[..]'`. -/
def trimmedMessage (text : String) : String :=
  String.mk (text.data.take (MAX_TRIMMED_MESSAGE_SIZE - 4)
    ++ "[..]".data)

/-- The keys preserved into the `original` sub-object. -/
def origKeys : List String :=
  ["logLevel", "logName", "excText", "excType", "excValue",
   "lineno", "filename", "funcName"]

/-- The loop `for key in (...): if key in eventDict:
original[key] = eventDict[key]`. -/
def origFold (eventDict : Event) (original : Event) : Event :=
  List.foldl (fun acc key =>
    match Event.get? eventDict key with
    | some v => Event.set acc key v
    | none => acc) original origKeys

/-- The `if 'message' in eventDict:` block of `serializeFailure`:
include the (trimmed) original message text, recording the untrimmed
length as `original_message_size` on the top-level dict. `none` models
the `TypeError` of `len` on a non-string message (the data model's
`message` is text). -/
def msgTrimStep (eventDict top original : Event) :
    Option (Event × Event) :=
  if Event.hasKey eventDict "message" then
    match Event.get? eventDict "message" with
    | some (.str text) =>
      if MAX_TRIMMED_MESSAGE_SIZE < text.length then
        some (Event.set top "original_message_size"
                (.num text.length),
              Event.set original "message"
                (.str (trimmedMessage text)))
      else some (top, Event.set original "message" (.str text))
    | _ => none
  else some (top, original)

/-- `UDPLogger.serializeFailure`, up to the final `serialize` call: the
meta-event dictionary. `none` models the `KeyError` on a missing
`timestamp` (or a raised trim step). The nested `original` dict is
built by in-place mutation in the source; here its final value is
installed into its slot. -/
def serializeFailureEvent (category : String) (eventDict : Event)
    (size : Nat) (failure : PyFailure) (why : Option String) :
    Option Event :=
  match Event.get? eventDict "timestamp" with
  | none => none
  | some ts =>
    let top : Event :=
      [("logLevel", .str "WARNING"),
       ("original", .obj [("category", .str category),
                          ("timestamp", ts)])]
    let top := augmentWithFailure top failure why
    let original : Event :=
      [("category", .str category), ("timestamp", ts)]
    match msgTrimStep eventDict top original with
    | none => none
    | some (top, original) =>
      let original := origFold eventDict original
      let top := Event.set top "original" (.obj original)
      some (Event.set top "original_size" (.num size))

/-- `UDPLogger.serializeFailure`: the meta-event framed under the
reserved category `udplog`. -/
def UDPLogger.serializeFailure (dumps : Event → String)
    (category : String) (eventDict : Event) (size : Nat)
    (failure : PyFailure) (why : Option String) : Option String :=
  (serializeFailureEvent category eventDict size failure why).map
    (UDPLogger.serialize dumps "udplog")

/-- Outcome of one `UDPLogger.log` call. -/
inductive LogOutcome where
  | sent (datagram : String)
  | meta (datagram : String)
  | stderrFallback
  | raised

/-- `UDPLogger.log`: augment, serialize, send; on send failure build
and send the meta-event; if that fails too, write to stderr once. -/
def UDPLogger.log (dumps : Event → String) (now : Val)
    (defaultFields : Event) (sendOk : String → Bool)
    (failure : PyFailure) (category : String) (eventDict : Event) :
    LogOutcome :=
  let ev := UDPLogger.augment now defaultFields eventDict
  let data := UDPLogger.serialize dumps category ev
  if sendOk data then .sent data
  else
    match UDPLogger.serializeFailure dumps category ev data.length
        failure (some "Failed to send udplog message") with
    | none => .raised
    | some data2 =>
      if sendOk data2 then .meta data2 else .stderrFallback

/-- Ground instances for the sender: a captured send failure, an
over-long message, and the resulting meta-event. -/
def demoFailure : PyFailure :=
  ⟨"Traceback text", "socket.error", "Message too long"⟩

def demoLongText : String := String.mk (List.replicate 204 'a')

def demoEventDict : Event :=
  [("message", .str demoLongText), ("logLevel", .str "ERROR")]

def demoDumps : Event → String := fun _ => "D"

def demoMeta : Event :=
  (serializeFailureEvent "atest"
    (UDPLogger.augment (.num 5) [] demoEventDict)
    (UDPLogger.serialize demoDumps "atest"
      (UDPLogger.augment (.num 5) [] demoEventDict)).length
    demoFailure (some "Failed to send udplog message")).getD []

def demoOrig : List (String × Val) :=
  match Event.get? demoMeta "original" with
  | some (.obj f) => f
  | _ => []

/-! ## Redis pool (`udplog/redis.py`, `RedisPushMultiClient`)

Factories are identified by `Nat`. The behaviour of a factory's client
for one attempt is given by `attempt`; `pick` models
`random.sample(self.factories, 1)[0]` (any selector that returns a
member of its argument). -/

/-- What one push attempt against a factory's client does: the client
attribute is missing (`AttributeError`), the push fails with
`RuntimeError("Not connected")`, it fails with another error
(surfaced), or it succeeds. -/
inductive ClientResult where
  | missing
  | notConnected
  | otherError (e : String)
  | success

inductive LpushError where
  | noClientError
  | runtimeError (e : String)
deriving DecidableEq, Repr

/-- Live factory set plus the factories that currently have a
reconnect callback attached by `_disconnected`. -/
structure RedisPushMultiClient where
  factories : List Nat
  reconnectCallbacks : List Nat

/-- `_reconnected`: re-insert the factory into the live set
(`self.factories.add(factory)`). -/
def RedisPushMultiClient.reconnected (s : RedisPushMultiClient)
    (factory : Nat) : RedisPushMultiClient :=
  if factory ∈ s.factories then s
  else { s with factories := s.factories ++ [factory] }

/-- `_disconnected`: remove the factory from the live set and attach a
callback on the factory's connection deferred that will call
`_reconnected`. -/
def RedisPushMultiClient.disconnected (s : RedisPushMultiClient)
    (factory : Nat) : RedisPushMultiClient :=
  { factories := s.factories.erase factory,
    reconnectCallbacks := s.reconnectCallbacks ++ [factory] }

/-- `lpush`, with explicit fuel: each retry removes the picked factory
from the live set, so `factories.length` fuel suffices (at fuel 0 the
set is empty for any member-selecting `pick`, yielding
`NoClientError`). -/
def lpushFuel (attempt : Nat → ClientResult) (pick : List Nat → Nat) :
    Nat → RedisPushMultiClient →
    Except LpushError Nat × RedisPushMultiClient
  | 0, s => (.error .noClientError, s)
  | fuel + 1, s =>
    if s.factories = [] then (.error .noClientError, s)
    else
      let factory := pick s.factories
      match attempt factory with
      | .missing => lpushFuel attempt pick fuel (s.disconnected factory)
      | .notConnected =>
        lpushFuel attempt pick fuel (s.disconnected factory)
      | .otherError e => (.error (.runtimeError e), s)
      | .success => (.ok factory, s)

/-- `RedisPushMultiClient.lpush`. -/
def RedisPushMultiClient.lpush (attempt : Nat → ClientResult)
    (pick : List Nat → Nat) (s : RedisPushMultiClient) :
    Except LpushError Nat × RedisPushMultiClient :=
  lpushFuel attempt pick s.factories.length s

/-! ## Sink event handling (`udplog/rabbitmq.py`, `udplog/scribe.py`,
`udplog/datadog.py`)

Each sink's `sendEvent` is modelled as a function that returns what was
handed to the transport together with the state of the caller's event
dictionary after the call: a sink that mutates a `copy.copy` leaves the
caller's dict unchanged, a sink that mutates in place returns the
mutated dict. -/

/-- Python `repr` for event values (used to stringify `timestamp`; the
exact rendering of structured values is irrelevant to the claims). -/
def pyRepr : Val → String
  | .null => "None"
  | .bool b => cond b "True" "False"
  | .num n => toString n
  | .str s => "'" ++ s ++ "'"
  | .arr _ => "[...]"
  | .obj _ => "{...}"
  | .dt _ => "datetime(...)"

/-- Python truthiness (used for `bool(event['isError'])`). -/
def pyTruthy : Val → Bool
  | .null => false
  | .bool b => b
  | .num n => ¬ n = 0
  | .str s => ¬ s = ""
  | .arr l => !List.isEmpty l
  | .obj l => !List.isEmpty l
  | .dt _ => true

/-- `RabbitMQPublisher.sendEvent`: without a channel the event is
dropped; otherwise a `copy.copy` is mutated (timestamp stringified,
`isError` coerced to bool) and published. First component: the
published JSON body (`none` when dropped, or when the `KeyError` on a
missing timestamp is raised); second: the caller's dict after the
call — unchanged, since the source mutates only the copy. -/
def RabbitMQPublisher.sendEvent (dumps : Event → String) (chan : Bool)
    (event : Event) : Option String × Event :=
  if chan = false then (none, event)
  else
    match Event.get? event "timestamp" with
    | none => (none, event)
    | some tsv =>
      let ev := Event.set event "timestamp" (.str (pyRepr tsv))
      let ev :=
        if Event.hasKey ev "isError" then
          match Event.get? ev "isError" with
          | some v => Event.set ev "isError" (.bool (pyTruthy v))
          | none => ev
        else ev
      (some (dumps ev), event)

/-- `logging.getLevelName` on the level names Python logging knows;
`none` for other names, which in Python 2 compare as a string against
the integer minimum and are therefore never dropped. -/
def levelOf? (s : String) : Option Int :=
  if s = "CRITICAL" then some 50
  else if s = "ERROR" then some 40
  else if s = "WARNING" then some 30
  else if s = "INFO" then some 20
  else if s = "DEBUG" then some 10
  else if s = "NOTSET" then some 0
  else none

/-- `ScribeProtocol.sendEvent`: a `copy.copy` is filtered by the
minimum log level, its `category` removed and the rest JSON-encoded as
the Scribe entry. First component: the `(category, message)` entry
handed to the client (`none` when dropped below the minimum level, on
the `KeyError` for a missing category, or on a failed JSON encode);
second: the caller's dict after the call — unchanged. -/
def ScribeProtocol.sendEvent (dumps : Event → Option String)
    (minLogLevel : Int) (event : Event) :
    Option (Val × String) × Event :=
  let lvl? :=
    match Event.get? event "logLevel" with
    | some (.str s) => levelOf? s
    | some _ => none
    | none => levelOf? "INFO"
  if (match lvl? with
      | some l => decide (l < minLogLevel)
      | none => false) then
    (none, event)
  else
    match Event.get? event "category" with
    | none => (none, event)
    | some catv =>
      let ev := Event.erase event "category"
      match dumps ev with
      | none => (none, event)
      | some message => (some (catv, message), event)

/-- The `event['tags'] += key+":"+value+","` loop: iterates the live
dict (which already holds the partially built `tags` entry, whose
visit contributes the accumulator built so far); a non-string value
raises `TypeError` (`none`). -/
def tagsLoopGo : List (String × Val) → String → Option String
  | [], acc => some acc
  | (k, v) :: rest, acc =>
    if k = "tags" then tagsLoopGo rest (acc ++ "tags:" ++ acc ++ ",")
    else
      match v with
      | .str s => tagsLoopGo rest (acc ++ k ++ ":" ++ s ++ ",")
      | _ => none

/-- The `if not event.has_key('tags')` block: build the comma-joined
tags string over the live dict and append `emitter:udplog`. `none`
models the `TypeError` on a non-string value. -/
def ddTagsStep (event : Event) : Option Event :=
  if Event.hasKey event "tags" then some event
  else
    match tagsLoopGo (Event.set event "tags" (.str "")) "" with
    | none => none
    | some tags =>
      some (Event.set (Event.set event "tags" (.str "")) "tags"
        (.str (tags ++ "emitter:udplog")))

/-- `DataDogPublisher.sendEvent` mutates the dispatched event **in
place** (the source takes no copy): `tags`, `title`, `priority` and
`text` are set on the caller's dict, which is then POSTed. `none`
models the `TypeError` raised by the tags loop on a non-string value.
Returns the caller's dict after the call — the mutated dict itself. -/
def DataDogPublisher.sendEvent (dumps : Event → String)
    (event : Event) : Option Event :=
  match ddTagsStep event with
  | none => none
  | some e =>
    let e :=
      if Event.hasKey e "title" then e
      else Event.set e "title"
        ((Event.get? e "category").getD (.str "default"))
    let e :=
      if Event.hasKey e "priority" then e
      else Event.set e "priority" (.str "normal")
    let e :=
      if Event.hasKey e "text" then e
      else Event.set e "text"
        ((Event.get? e "message").getD (.str (dumps e)))
    some e

/-- Ground instances for the sinks. -/
def ddDemoEvent : Event := [("category", .str "test"), ("message", .str "m")]

def ddDemoDumps : Event → String := fun _ => "J"

def ddDemoOut : Event :=
  (DataDogPublisher.sendEvent ddDemoDumps ddDemoEvent).getD []

/-! ## Theorems -/

theorem dispatchLoop_calls (run : C → Event → Except String Unit)
    (cs : List C) (event : Event) :
    (dispatchLoop run cs event).calls = cs := by
  induction cs with
  | nil => rfl
  | cons c rest ih =>
    simp only [dispatchLoop]
    cases run c event <;> simp [ih]

theorem dispatchLoop_logged (run : C → Event → Except String Unit)
    (cs : List C) (event : Event) :
    (dispatchLoop run cs event).logged
      = List.filter (fun c => isErr (run c event)) cs := by
  induction cs with
  | nil => rfl
  | cons c rest ih =>
    simp only [dispatchLoop, List.filter]
    cases h : run c event <;> simp [h, isErr, ih]

/-- C1: dispatching an event calls each registered consumer exactly
once, even when any subset of the consumers raises an exception: every
raised exception is logged and every remaining consumer still receives
the event. -/
theorem C1_dispatch_each_consumer_once {C : Type} [DecidableEq C]
    (d : DispatcherFromUDPLogProtocol C)
    (run : C → Event → Except String Unit) (event : Event)
    (hnd : d.consumers.Nodup) :
    (d.eventReceived run event).calls = d.consumers ∧
    (∀ c ∈ d.consumers,
      List.count c (d.eventReceived run event).calls = 1) ∧
    (∀ c ∈ d.consumers, isErr (run c event) = true →
      c ∈ (d.eventReceived run event).logged) := by
  refine ⟨dispatchLoop_calls run d.consumers event, ?_, ?_⟩
  · intro c hc
    rw [DispatcherFromUDPLogProtocol.eventReceived, dispatchLoop_calls]
    exact List.count_eq_one_of_mem hnd hc
  · intro c hc herr
    rw [DispatcherFromUDPLogProtocol.eventReceived, dispatchLoop_logged]
    exact List.mem_filter.mpr ⟨hc, by simp [herr]⟩

/-- Witness for C1 at a concrete dispatcher with three consumers of
which one raises. -/
theorem C1_witness :
    (DispatcherFromUDPLogProtocol.mk [0, 1, 2] : DispatcherFromUDPLogProtocol Nat).consumers.Nodup ∧
    ((DispatcherFromUDPLogProtocol.mk [0, 1, 2] : DispatcherFromUDPLogProtocol Nat).eventReceived
        (fun c _ => if c = 0 then .error "Oops" else .ok ()) []).calls = [0, 1, 2] := by
  have h := C1_dispatch_each_consumer_once
    (DispatcherFromUDPLogProtocol.mk [0, 1, 2])
    (fun c _ => if c = 0 then .error "Oops" else .ok ()) []
    (by decide)
  exact ⟨by decide, h.1⟩


theorem dequeAppend_length_le (n : Nat) (q : List α) (x : α) :
    (dequeAppend (some n) q x).length ≤ n := by
  simp only [dequeAppend, List.length_drop, List.length_append,
    List.length_cons, List.length_nil]
  omega

/-- Keeping the last `n` elements commutes with first keeping the last
`n` of a prefix. -/
theorem lastN_append (n : Nat) (l xs : List α) :
    (List.drop (l.length - n) l ++ xs).drop
        ((List.drop (l.length - n) l ++ xs).length - n)
      = (l ++ xs).drop ((l ++ xs).length - n) := by
  rw [List.drop_append_eq_append_drop, List.drop_append_eq_append_drop,
    List.drop_drop]
  have h1 : l.length - n + ((List.drop (l.length - n) l ++ xs).length - n)
      = (l ++ xs).length - n := by
    simp only [List.length_append, List.length_drop]
    omega
  have h2 : (List.drop (l.length - n) l ++ xs).length - n
        - (List.drop (l.length - n) l).length
      = (l ++ xs).length - n - l.length := by
    simp only [List.length_append, List.length_drop]
    omega
  rw [h1, h2]

/-- Folding bounded appends over a list keeps exactly the last `n`
elements of queue-then-input. -/
theorem foldl_dequeAppend (n : Nat) (xs : List α) (q : List α)
    (hq : q.length ≤ n) :
    List.foldl (dequeAppend (some n)) q xs
      = List.drop ((q ++ xs).length - n) (q ++ xs) := by
  induction xs generalizing q with
  | nil =>
    simp only [List.foldl_nil, List.append_nil]
    have h0 : q.length - n = 0 := by omega
    rw [h0, List.drop_zero]
  | cons x xs ih =>
    rw [List.foldl_cons, ih _ (dequeAppend_length_le n q x)]
    have hd : dequeAppend (some n) q x
        = List.drop ((q ++ [x]).length - n) (q ++ [x]) := by
      simp only [dequeAppend, List.length_append, List.length_cons,
        List.length_nil]
    rw [hd, lastN_append n (q ++ [x]) xs, List.append_assoc,
      List.singleton_append]

theorem putMany_paused (p : QueueProducer α) (xs : List α)
    (hp : p.paused = true) :
    putMany p xs
      = ({ p with pending := List.foldl (dequeAppend p.size) p.pending xs },
         []) := by
  induction xs generalizing p with
  | nil => rfl
  | cons x xs ih =>
    have hstep : QueueProducer.put p x
        = ({ p with pending := dequeAppend p.size p.pending x }, none) := by
      simp [QueueProducer.put, hp]
    have : putMany p (x :: xs)
        = putMany { p with pending := dequeAppend p.size p.pending x } xs := by
      simp only [putMany, List.foldl_cons, hstep, Option.toList_none,
        List.append_nil]
    rw [this,
      ih { p with pending := dequeAppend p.size p.pending x } hp,
      List.foldl_cons]

theorem drainAll_not_paused (pending : List α) (size : Option Nat)
    (waiting : Bool) :
    (drainAll (⟨false, pending, size, waiting⟩ : QueueProducer α)).1
      = pending := by
  induction pending with
  | nil => rw [drainAll]; simp
  | cons x rest ih => rw [drainAll]; simpa using ih

/-- C2: for a bounded queue with cap `N`, putting `M > N` items while
paused and then resuming delivers exactly the last `N` items put, in the
order they were put (drop-oldest on append when full). -/
theorem C2_bounded_queue_last_N {α : Type} (N : Nat) (xs : List α)
    (hM : N < xs.length) :
    (putMany (QueueProducer.init (some N)) xs).2 = [] ∧
    (drainAll (QueueProducer.resumeProducing
        (putMany (QueueProducer.init (some N)) xs).1)).1
      = List.drop (xs.length - N) xs ∧
    (List.drop (xs.length - N) xs).length = N := by
  have hput := putMany_paused (QueueProducer.init (some N)) xs rfl
  refine ⟨by rw [hput], ?_, by simp only [List.length_drop]; omega⟩
  rw [hput]
  have hfold := foldl_dequeAppend N xs [] (by simp)
  simp only [List.nil_append] at hfold
  simp only [QueueProducer.init, QueueProducer.resumeProducing, hfold]
  exact drainAll_not_paused _ _ _

/-- Witness for C2 with cap 2 and five puts while paused. -/
theorem C2_witness :
    (2 : Nat) < ([1, 2, 3, 4, 5] : List Nat).length ∧
    (drainAll (QueueProducer.resumeProducing
        (putMany (QueueProducer.init (some 2)) [1, 2, 3, 4, 5]).1)).1
      = [4, 5] := by
  have h := C2_bounded_queue_last_N (α := Nat) 2 [1, 2, 3, 4, 5] (by decide)
  exact ⟨by decide, h.2.1.trans (by rfl)⟩

theorem Event.get?_set_self (e : Event) (k : String) (v : Val) :
    Event.get? (Event.set e k v) k = some v := by
  induction e with
  | nil => simp [Event.set, Event.get?, List.find?]
  | cons p rest ih =>
    by_cases h : p.1 = k
    · simp [Event.set, h, Event.get?, List.find?]
    · simpa [Event.set, h, Event.get?, List.find?] using ih

theorem Event.get?_set_ne (e : Event) (k k' : String) (v : Val)
    (h : k' ≠ k) :
    Event.get? (Event.set e k v) k' = Event.get? e k' := by
  induction e with
  | nil => simp [Event.set, Event.get?, List.find?, Ne.symm h]
  | cons p rest ih =>
    by_cases hp : p.1 = k
    · simp [Event.set, hp, Event.get?, List.find?, Ne.symm h,
        (hp ▸ Ne.symm h : ¬ p.1 = k')]
    · by_cases hp' : p.1 = k'
      · simp [Event.set, hp, Event.get?, List.find?, hp', h]
      · simpa [Event.set, hp, Event.get?, List.find?, hp'] using ih

/-- C3: for every received datagram, when it is well-formed (has a
colon, the right side parses as JSON and decodes to an object) the
Dispatcher receives exactly one event whose `category` is the left side
of the frame and whose other fields equal the JSON decoding; otherwise
the decode fails with `malformedFrame` (no colon), `malformedJSON`
(parse failure) or `notAnObject` (JSON not an object) and the datagram
is dropped with no event dispatched. -/
theorem C3_native_decode (loads : String → Option Val)
    (datagram : String) :
    (∀ cat rest fields,
      splitFirstColon (pyRstrip datagram).data = some (cat, rest) →
      loads (String.mk rest) = some (.obj fields) →
      datagramReceived loads datagram
          = .ok (Event.set fields "category" (.str (String.mk cat))) ∧
      datagramEvents loads datagram
          = [Event.set fields "category" (.str (String.mk cat))] ∧
      Event.get? (Event.set fields "category" (.str (String.mk cat)))
          "category" = some (.str (String.mk cat)) ∧
      (∀ k, k ≠ "category" →
        Event.get? (Event.set fields "category" (.str (String.mk cat))) k
          = Event.get? fields k)) ∧
    (splitFirstColon (pyRstrip datagram).data = none →
      datagramReceived loads datagram = .error .malformedFrame ∧
      datagramEvents loads datagram = []) ∧
    (∀ cat rest,
      splitFirstColon (pyRstrip datagram).data = some (cat, rest) →
      loads (String.mk rest) = none →
      datagramReceived loads datagram = .error .malformedJSON ∧
      datagramEvents loads datagram = []) ∧
    (∀ cat rest v,
      splitFirstColon (pyRstrip datagram).data = some (cat, rest) →
      loads (String.mk rest) = some v →
      (∀ fields, v ≠ .obj fields) →
      datagramReceived loads datagram = .error .notAnObject ∧
      datagramEvents loads datagram = []) := by
  refine ⟨?_, ?_, ?_, ?_⟩
  · intro cat rest fields hsplit hloads
    have hok : datagramReceived loads datagram
        = .ok (Event.set fields "category" (.str (String.mk cat))) := by
      simp [datagramReceived, unserialize, hsplit, hloads]
    refine ⟨hok, by simp [datagramEvents, hok],
      Event.get?_set_self _ _ _, fun k hk => Event.get?_set_ne _ _ _ _ hk⟩
  · intro hsplit
    have herr : datagramReceived loads datagram = .error .malformedFrame := by
      simp [datagramReceived, unserialize, hsplit]
    exact ⟨herr, by simp [datagramEvents, herr]⟩
  · intro cat rest hsplit hloads
    have herr : datagramReceived loads datagram = .error .malformedJSON := by
      simp [datagramReceived, unserialize, hsplit, hloads]
    exact ⟨herr, by simp [datagramEvents, herr]⟩
  · intro cat rest v hsplit hloads hne
    have herr : datagramReceived loads datagram = .error .notAnObject := by
      cases v with
      | obj fields => exact absurd rfl (hne fields)
      | null => simp [datagramReceived, unserialize, hsplit, hloads]
      | bool b => simp [datagramReceived, unserialize, hsplit, hloads]
      | num n => simp [datagramReceived, unserialize, hsplit, hloads]
      | str s => simp [datagramReceived, unserialize, hsplit, hloads]
      | arr l => simp [datagramReceived, unserialize, hsplit, hloads]
      | dt d => simp [datagramReceived, unserialize, hsplit, hloads]
    exact ⟨herr, by simp [datagramEvents, herr]⟩

/-- Witness for C3 on concrete well-formed and malformed datagrams. -/
theorem C3_witness :
    splitFirstColon (pyRstrip "test_category:\tGOODBODY").data
        = some ("test_category".data, "\tGOODBODY".data) ∧
    loadsDemo (String.mk "\tGOODBODY".data)
        = some (.obj [("key", .str "value")]) ∧
    datagramEvents loadsDemo "test_category:\tGOODBODY"
        = [[("key", .str "value"), ("category", .str "test_category")]] ∧
    datagramReceived loadsDemo "no_colon_here"
        = .error .malformedFrame ∧
    datagramReceived loadsDemo "test_category:\tBADBODY"
        = .error .malformedJSON ∧
    datagramReceived loadsDemo "test_category:\tNUMBODY"
        = .error .notAnObject := by
  have hok := (C3_native_decode loadsDemo "test_category:\tGOODBODY").1
    "test_category".data "\tGOODBODY".data [("key", .str "value")]
    (by rfl) (by rfl)
  have hframe := (C3_native_decode loadsDemo "no_colon_here").2.1 (by rfl)
  have hjson := (C3_native_decode loadsDemo "test_category:\tBADBODY").2.2.1
    "test_category".data "\tBADBODY".data (by rfl) (by rfl)
  have hobj := (C3_native_decode loadsDemo "test_category:\tNUMBODY").2.2.2
    "test_category".data "\tNUMBODY".data (.num 3) (by rfl) (by rfl)
    (fun fields h => by cases h)
  exact ⟨by rfl, by rfl, hok.2.1.trans (by rfl), hframe.1, hjson.1, hobj.1⟩

/-- C10: when the decoded JSON object itself contains a `category` key,
the ingress assignment overwrites it with the frame's left-hand side. -/
theorem C10_category_overwrite (loads : String → Option Val)
    (datagram : String) (cat rest : List Char)
    (fields : List (String × Val)) (v : Val)
    (hsplit : splitFirstColon (pyRstrip datagram).data = some (cat, rest))
    (hloads : loads (String.mk rest) = some (.obj fields))
    (hcat : Event.get? fields "category" = some v) :
    datagramReceived loads datagram
        = .ok (Event.set fields "category" (.str (String.mk cat))) ∧
    Event.get? (Event.set fields "category" (.str (String.mk cat)))
        "category" = some (.str (String.mk cat)) := by
  exact ⟨by simp [datagramReceived, unserialize, hsplit, hloads],
    Event.get?_set_self _ _ _⟩

/-- Witness for C10: the JSON body carries `category = spoof`, the
dispatched event carries the frame category. -/
theorem C10_witness :
    Event.get? [("category", .str "spoof"), ("key", .str "value")]
        "category" = some (.str "spoof") ∧
    datagramReceived loadsDemo "test_category:\tCATBODY"
        = .ok [("category", .str "test_category"), ("key", .str "value")] := by
  have h := C10_category_overwrite loadsDemo "test_category:\tCATBODY"
    "test_category".data "\tCATBODY".data
    [("category", .str "spoof"), ("key", .str "value")] (.str "spoof")
    (by rfl) (by rfl) (by rfl)
  exact ⟨by rfl, h.1.trans (by rfl)⟩

theorem Event.hasKey_eq_isSome (e : Event) (k : String) :
    Event.hasKey e k = (Event.get? e k).isSome := by
  induction e with
  | nil => rfl
  | cons p rest ih =>
    by_cases h : p.1 = k
    · simp [Event.hasKey, Event.get?, List.find?, h]
    · simpa [Event.hasKey, Event.get?, List.find?, h] using ih

theorem Event.hasKey_set (e : Event) (k : String) (v : Val) (k' : String) :
    Event.hasKey (Event.set e k v) k'
      = (decide (k = k') || Event.hasKey e k') := by
  by_cases h : k' = k
  · subst h
    simp [Event.hasKey_eq_isSome, Event.get?_set_self]
  · simp [Event.hasKey_eq_isSome, Event.get?_set_ne e k k' v h,
      Ne.symm h]

theorem Event.get?_erase_self (e : Event) (k : String) :
    Event.get? (Event.erase e k) k = none := by
  induction e with
  | nil => rfl
  | cons p rest ih =>
    by_cases h : p.1 = k
    · simpa [Event.erase, h] using ih
    · simpa [Event.erase, Event.get?, List.find?, h] using ih

theorem Event.get?_erase_ne (e : Event) (k k' : String) (h : k' ≠ k) :
    Event.get? (Event.erase e k) k' = Event.get? e k' := by
  induction e with
  | nil => rfl
  | cons p rest ih =>
    by_cases hp : p.1 = k
    · have hp' : ¬ p.1 = k' := by rw [hp]; exact Ne.symm h
      simp only [Event.erase, hp, if_true, ih]
      simp [Event.get?, List.find?, hp']
    · by_cases hp' : p.1 = k'
      · simp [Event.erase, Event.get?, List.find?, hp, hp', h]
      · simp only [Event.erase, hp, if_false, reduceIte]
        simpa [Event.get?, List.find?, hp'] using ih

theorem Event.hasKey_erase_self (e : Event) (k : String) :
    Event.hasKey (Event.erase e k) k = false := by
  simp [Event.hasKey_eq_isSome, Event.get?_erase_self]

theorem Event.hasKey_erase_ne (e : Event) (k k' : String) (h : k' ≠ k) :
    Event.hasKey (Event.erase e k) k' = Event.hasKey e k' := by
  simp [Event.hasKey_eq_isSome, Event.get?_erase_ne e k k' h]

theorem Event.get?_append_single_self (e : Event) (k : String) (v : Val)
    (h : Event.hasKey e k = false) :
    Event.get? (e ++ [(k, v)]) k = some v := by
  induction e with
  | nil => simp [Event.get?, List.find?]
  | cons p rest ih =>
    simp only [Event.hasKey, List.any_cons, Bool.or_eq_false_iff,
      decide_eq_false_iff_not] at h
    simpa [Event.get?, List.find?, h.1] using ih (by
      simpa [Event.hasKey] using h.2)

theorem Event.get?_append_single_ne (e : Event) (k : String) (v : Val)
    (k' : String) (h : k' ≠ k) :
    Event.get? (e ++ [(k, v)]) k' = Event.get? e k' := by
  induction e with
  | nil => simp [Event.get?, List.find?, Ne.symm h]
  | cons p rest ih =>
    by_cases hp : p.1 = k'
    · simp [Event.get?, List.find?, hp]
    · simpa [Event.get?, List.find?, hp] using ih

theorem Event.get?_setdefault_ne (e : Event) (k : String) (v : Val)
    (k' : String) (h : k' ≠ k) :
    Event.get? (Event.setdefault e k v) k' = Event.get? e k' := by
  unfold Event.setdefault
  by_cases hk : Event.hasKey e k
  · simp [hk]
  · simp [hk, Event.get?_append_single_ne e k v k' h]

theorem Event.get?_setdefault_absent (e : Event) (k : String) (v : Val)
    (h : Event.hasKey e k = false) :
    Event.get? (Event.setdefault e k v) k = some v := by
  unfold Event.setdefault
  simp [h, Event.get?_append_single_self e k v h]

theorem Event.get?_setdefault_present (e : Event) (k : String) (v : Val)
    (h : Event.hasKey e k = true) :
    Event.get? (Event.setdefault e k v) k = Event.get? e k := by
  unfold Event.setdefault
  simp [h]

theorem Event.hasKey_setdefault_ne (e : Event) (k : String) (v : Val)
    (k' : String) (h : k' ≠ k) :
    Event.hasKey (Event.setdefault e k v) k' = Event.hasKey e k' := by
  simp [Event.hasKey_eq_isSome, Event.get?_setdefault_ne e k v k' h]

theorem tsConvert_spec (e : Event) (d : PyDateTime)
    (h : Event.get? e "timestamp" = some (.dt d)) :
    tsConvert e
      = some (Event.set e "timestamp" (.num (timegmUtctimetuple d))) := by
  have hk : Event.hasKey e "timestamp" = true := by
    simp [Event.hasKey_eq_isSome, h]
  simp [tsConvert, hk, h]

theorem tsConvert_get_ne (e e1 : Event) (h : tsConvert e = some e1)
    (k : String) (hk : k ≠ "timestamp") :
    Event.get? e1 k = Event.get? e k := by
  unfold tsConvert at h
  cases hts : Event.hasKey e "timestamp" with
  | false => rw [hts] at h; simp at h; rw [h]
  | true =>
    rw [hts] at h
    simp only [if_true] at h
    cases hget : Event.get? e "timestamp" with
    | none => rw [hget] at h; simp at h
    | some v =>
      rw [hget] at h
      cases v with
      | null => simp at h
      | bool b => simp at h
      | num n => simp at h
      | str s => simp at h
      | arr l => simp at h
      | obj f => simp at h
      | dt d =>
        simp only [Option.some.injEq] at h
        rw [← h]
        exact Event.get?_set_ne e "timestamp" k _ hk

theorem tsConvert_hasKey (e e1 : Event) (h : tsConvert e = some e1)
    (k : String) :
    Event.hasKey e1 k = Event.hasKey e k := by
  unfold tsConvert at h
  cases hts : Event.hasKey e "timestamp" with
  | false => rw [hts] at h; simp at h; rw [h]
  | true =>
    rw [hts] at h
    simp only [if_true] at h
    cases hget : Event.get? e "timestamp" with
    | none => rw [hget] at h; simp at h
    | some v =>
      rw [hget] at h
      cases v with
      | null => simp at h
      | bool b => simp at h
      | num n => simp at h
      | str s => simp at h
      | arr l => simp at h
      | obj f => simp at h
      | dt d =>
        simp only [Option.some.injEq] at h
        rw [← h, Event.hasKey_set]
        by_cases hk : "timestamp" = k
        · rw [← hk, hts]; simp
        · simp [hk]

theorem tagRename_spec (e : Event) (v : Val)
    (h : Event.get? e "tag" = some v) :
    tagRename e = Event.erase (Event.set e "appname" v) "tag" := by
  have hk : Event.hasKey e "tag" = true := by
    simp [Event.hasKey_eq_isSome, h]
  simp [tagRename, hk, h]

theorem tagRename_get_ne (e : Event) (k : String)
    (h1 : k ≠ "appname") (h2 : k ≠ "tag") :
    Event.get? (tagRename e) k = Event.get? e k := by
  unfold tagRename
  cases ht : Event.hasKey e "tag" with
  | false => simp
  | true =>
    simp only [if_true]
    cases hg : Event.get? e "tag" with
    | none => rfl
    | some v =>
      rw [Event.get?_erase_ne _ _ _ h2, Event.get?_set_ne _ _ _ _ h1]

theorem tagRename_hasKey_ne (e : Event) (k : String)
    (h1 : k ≠ "appname") (h2 : k ≠ "tag") :
    Event.hasKey (tagRename e) k = Event.hasKey e k := by
  simp [Event.hasKey_eq_isSome, tagRename_get_ne e k h1 h2]

theorem sevRename_spec (e : Event) (s lvl : String)
    (hs : Event.get? e "severity" = some (.str s))
    (hl : List.lookup s LOG_LEVELS = some lvl) :
    sevRename e
      = some (Event.erase (Event.set e "logLevel" (.str lvl))
          "severity") := by
  have hk : Event.hasKey e "severity" = true := by
    simp [Event.hasKey_eq_isSome, hs]
  simp [sevRename, hk, hs, hl]

theorem sevRename_get_ne (e e4 : Event) (h : sevRename e = some e4)
    (k : String) (h1 : k ≠ "logLevel") (h2 : k ≠ "severity") :
    Event.get? e4 k = Event.get? e k := by
  unfold sevRename at h
  split at h
  · split at h
    · split at h
      · simp only [Option.some.injEq] at h
        rw [← h, Event.get?_erase_ne _ _ _ h2,
          Event.get?_set_ne _ _ _ _ h1]
      · simp at h
    · simp at h
  · simp only [Option.some.injEq] at h
    rw [h]

theorem sevRename_hasKey_ne (e e4 : Event) (h : sevRename e = some e4)
    (k : String) (h1 : k ≠ "logLevel") (h2 : k ≠ "severity") :
    Event.hasKey e4 k = Event.hasKey e k := by
  simp [Event.hasKey_eq_isSome, sevRename_get_ne e e4 h k h1 h2]

theorem hostRewrite_get_ne (hostnames : List (String × String))
    (e : Event) (k : String) (h : k ≠ "hostname") :
    Event.get? (hostRewrite hostnames e) k = Event.get? e k := by
  unfold hostRewrite
  split
  · split
    · exact Event.get?_set_ne _ _ _ _ h
    · rfl
  · rfl

theorem hostRewrite_hasKey_ne (hostnames : List (String × String))
    (e : Event) (k : String) (h : k ≠ "hostname") :
    Event.hasKey (hostRewrite hostnames e) k = Event.hasKey e k := by
  simp [Event.hasKey_eq_isSome, hostRewrite_get_ne hostnames e k h]

theorem parsePriority_none (p : Nat) (hp : 191 < p) :
    parsePriority p = none := by
  have hlen : FACILITIES.length ≤ p / 8 := by
    have h24 : 24 ≤ p / 8 := Nat.le_div_iff_mul_le (by norm_num) |>.mpr
      (by omega)
    simpa [FACILITIES] using h24
  have hnone : FACILITIES[p / 8]? = none :=
    List.getElem?_eq_none hlen
  cases h2 : SEVERITIES[p % 8]? <;> simp [parsePriority, hnone, h2]

/-- C9: for every priority `p ≤ 191`, `parsePriority p` is the pair of
the facility at index `p / 8` and the severity at index `p % 8` (in
particular `13` maps to `(user, notice)`); for `p > 191` the
`IndexError` is swallowed and the parsed syslog event carries neither
`facility` nor `severity`. -/
theorem C9_priority_roundtrip :
    (∀ p : Nat, p ≤ 191 → ∀ f s,
      FACILITIES[p / 8]? = some f → SEVERITIES[p % 8]? = some s →
      parsePriority p = some (f, s)) ∧
    (∀ p : Nat, p ≤ 191 → (parsePriority p).isSome = true) ∧
    parsePriority 13 = some ("user", "notice") ∧
    (∀ (line : String) (m : SyslogMatch)
      (ceeLoads : String → Option Val) (e : Event),
      191 < m.priority → m.cee = none →
      parseSyslog line (some m) ceeLoads = some e →
      Event.hasKey e "facility" = false ∧
      Event.hasKey e "severity" = false) := by
  have hfac : ∀ p : Nat, p ≤ 191 → p / 8 < FACILITIES.length := by
    intro p hp
    have h23 : p / 8 ≤ 191 / 8 := Nat.div_le_div_right hp
    simp only [FACILITIES, List.length_cons, List.length_nil]
    omega
  have hsev : ∀ p : Nat, p % 8 < SEVERITIES.length := by
    intro p
    have := Nat.mod_lt p (y := 8) (by norm_num)
    simp only [SEVERITIES, List.length_cons, List.length_nil]
    omega
  refine ⟨?_, ?_, by rfl, ?_⟩
  · intro p hp f s hf hs
    simp [parsePriority, hf, hs]
  · intro p hp
    rw [parsePriority, List.getElem?_eq_getElem (hfac p hp),
      List.getElem?_eq_getElem (hsev p)]
    rfl
  · intro line m ceeLoads e hp hcee hparse
    have hpp := parsePriority_none m.priority hp
    cases hts : m.timestamp <;> cases hpid : m.pid <;>
      · simp only [parseSyslog, hpp, hcee, hts, hpid,
          Option.some.injEq] at hparse
        rw [← hparse]
        exact ⟨rfl, rfl⟩

/-- Witness for C9 at priorities 13 and 192 with a concrete match. -/
theorem C9_witness :
    (13 : Nat) ≤ 191 ∧
    parsePriority 13 = some ("user", "notice") ∧
    191 < (192 : Nat) ∧
    parseSyslog "irrelevant"
        (some ⟨192, none, "myhost", "test", none, "hello", none, "hello"⟩)
        (fun _ => none)
      = some [("hostname", .str "myhost"), ("tag", .str "test"),
              ("message", .str "hello")] ∧
    Event.hasKey
        [("hostname", .str "myhost"), ("tag", .str "test"),
         ("message", .str "hello")] "facility" = false ∧
    Event.hasKey
        [("hostname", .str "myhost"), ("tag", .str "test"),
         ("message", .str "hello")] "severity" = false := by
  have h := C9_priority_roundtrip
  have habsent := h.2.2.2 "irrelevant"
    ⟨192, none, "myhost", "test", none, "hello", none, "hello"⟩
    (fun _ => none)
    [("hostname", .str "myhost"), ("tag", .str "test"),
     ("message", .str "hello")]
    (by decide) rfl (by rfl)
  exact ⟨by decide, h.2.2.1, by decide, by rfl, habsent.1, habsent.2⟩

/-- C8: syslog normalization renames `tag` to `appname`; renames
`severity` to `logLevel` via the fixed mapping; sets `category` to
`syslog` exactly when it was unset; and converts an existing datetime
`timestamp` to POSIX seconds via UTC conversion. -/
theorem C8_syslog_normalization (ev : Event)
    (hostnames : List (String × String)) (out : Event)
    (hout : syslogToUDPLogEvent ev hostnames = some out) :
    (∀ v, Event.get? ev "tag" = some v →
      Event.get? out "appname" = some v ∧
      Event.hasKey out "tag" = false) ∧
    (∀ s lvl, Event.get? ev "severity" = some (.str s) →
      List.lookup s LOG_LEVELS = some lvl →
      Event.get? out "logLevel" = some (.str lvl) ∧
      Event.hasKey out "severity" = false) ∧
    (List.lookup "emerg" LOG_LEVELS = some "EMERGENCY" ∧
     List.lookup "alert" LOG_LEVELS = some "ALERT" ∧
     List.lookup "crit" LOG_LEVELS = some "CRITICAL" ∧
     List.lookup "err" LOG_LEVELS = some "ERROR" ∧
     List.lookup "warn" LOG_LEVELS = some "WARNING" ∧
     List.lookup "notice" LOG_LEVELS = some "NOTICE" ∧
     List.lookup "info" LOG_LEVELS = some "INFO" ∧
     List.lookup "debug" LOG_LEVELS = some "DEBUG") ∧
    (Event.hasKey ev "category" = false →
      Event.get? out "category" = some (.str "syslog")) ∧
    (Event.hasKey ev "category" = true →
      Event.get? out "category" = Event.get? ev "category") ∧
    (∀ d, Event.get? ev "timestamp" = some (.dt d) →
      Event.get? out "timestamp"
        = some (.num (timegmUtctimetuple d))) := by
  unfold syslogToUDPLogEvent at hout
  cases hts : tsConvert ev with
  | none => rw [hts] at hout; simp at hout
  | some e1 =>
    rw [hts] at hout
    simp only at hout
    cases hsev : sevRename (tagRename
        (Event.setdefault e1 "category" (.str "syslog"))) with
    | none => rw [hsev] at hout; simp at hout
    | some e4 =>
      rw [hsev] at hout
      simp only [Option.some.injEq] at hout
      rw [← hout]
      refine ⟨?_, ?_, ⟨rfl, rfl, rfl, rfl, rfl, rfl, rfl, rfl⟩,
        ?_, ?_, ?_⟩
      · intro v hv
        have h1 : Event.get? e1 "tag" = some v := by
          rw [tsConvert_get_ne ev e1 hts "tag" (by decide)]; exact hv
        have h2 : Event.get? (Event.setdefault e1 "category"
            (.str "syslog")) "tag" = some v := by
          rw [Event.get?_setdefault_ne e1 "category" _ "tag" (by decide)]
          exact h1
        have h3 := tagRename_spec _ v h2
        constructor
        · rw [hostRewrite_get_ne hostnames e4 "appname" (by decide),
            sevRename_get_ne _ e4 hsev "appname" (by decide) (by decide),
            h3, Event.get?_erase_ne _ _ _ (by decide),
            Event.get?_set_self]
        · rw [hostRewrite_hasKey_ne hostnames e4 "tag" (by decide),
            sevRename_hasKey_ne _ e4 hsev "tag" (by decide) (by decide),
            h3, Event.hasKey_erase_self]
      · intro s lvl hs hl
        have h1 : Event.get? e1 "severity" = some (.str s) := by
          rw [tsConvert_get_ne ev e1 hts "severity" (by decide)]; exact hs
        have h2 : Event.get? (Event.setdefault e1 "category"
            (.str "syslog")) "severity" = some (.str s) := by
          rw [Event.get?_setdefault_ne e1 "category" _ "severity"
            (by decide)]
          exact h1
        have h3 : Event.get? (tagRename (Event.setdefault e1 "category"
            (.str "syslog"))) "severity" = some (.str s) := by
          rw [tagRename_get_ne _ "severity" (by decide) (by decide)]
          exact h2
        have h4 := sevRename_spec _ s lvl h3 hl
        rw [hsev] at h4
        simp only [Option.some.injEq] at h4
        constructor
        · rw [hostRewrite_get_ne hostnames e4 "logLevel" (by decide),
            h4, Event.get?_erase_ne _ _ _ (by decide),
            Event.get?_set_self]
        · rw [hostRewrite_hasKey_ne hostnames e4 "severity" (by decide),
            h4, Event.hasKey_erase_self]
      · intro hc
        have h1 : Event.hasKey e1 "category" = false := by
          rw [tsConvert_hasKey ev e1 hts "category"]; exact hc
        have h2 := Event.get?_setdefault_absent e1 "category"
          (.str "syslog") h1
        rw [hostRewrite_get_ne hostnames e4 "category" (by decide),
          sevRename_get_ne _ e4 hsev "category" (by decide) (by decide),
          tagRename_get_ne _ "category" (by decide) (by decide), h2]
      · intro hc
        have h1 : Event.hasKey e1 "category" = true := by
          rw [tsConvert_hasKey ev e1 hts "category"]; exact hc
        have h2 := Event.get?_setdefault_present e1 "category"
          (.str "syslog") h1
        rw [hostRewrite_get_ne hostnames e4 "category" (by decide),
          sevRename_get_ne _ e4 hsev "category" (by decide) (by decide),
          tagRename_get_ne _ "category" (by decide) (by decide), h2,
          tsConvert_get_ne ev e1 hts "category" (by decide)]
      · intro d hd
        have h1 : tsConvert ev = some (Event.set ev "timestamp"
            (.num (timegmUtctimetuple d))) := tsConvert_spec ev d hd
        rw [hts] at h1
        simp only [Option.some.injEq] at h1
        have h2 : Event.get? e1 "timestamp"
            = some (.num (timegmUtctimetuple d)) := by
          rw [h1, Event.get?_set_self]
        rw [hostRewrite_get_ne hostnames e4 "timestamp" (by decide),
          sevRename_get_ne _ e4 hsev "timestamp" (by decide) (by decide),
          tagRename_get_ne _ "timestamp" (by decide) (by decide),
          Event.get?_setdefault_ne e1 "category" _ "timestamp"
            (by decide), h2]

/-- Witness for C8 at the spec's Amsterdam example (offset +60 min). -/
theorem C8_witness :
    syslogToUDPLogEvent
        [("timestamp", .dt ⟨2015, 1, 15, 16, 59, 26, 60⟩),
         ("severity", .str "notice"), ("tag", .str "test"),
         ("hostname", .str "myhost"), ("message", .str "hello")] []
      = some
        [("timestamp", .num 1421337566), ("hostname", .str "myhost"),
         ("message", .str "hello"), ("category", .str "syslog"),
         ("appname", .str "test"), ("logLevel", .str "NOTICE")] ∧
    Event.get?
        [("timestamp", .num 1421337566), ("hostname", .str "myhost"),
         ("message", .str "hello"), ("category", .str "syslog"),
         ("appname", .str "test"), ("logLevel", .str "NOTICE")]
        "logLevel" = some (.str "NOTICE") ∧
    Event.get?
        [("timestamp", .num 1421337566), ("hostname", .str "myhost"),
         ("message", .str "hello"), ("category", .str "syslog"),
         ("appname", .str "test"), ("logLevel", .str "NOTICE")]
        "appname" = some (.str "test") ∧
    Event.get?
        [("timestamp", .num 1421337566), ("hostname", .str "myhost"),
         ("message", .str "hello"), ("category", .str "syslog"),
         ("appname", .str "test"), ("logLevel", .str "NOTICE")]
        "category" = some (.str "syslog") ∧
    Event.get?
        [("timestamp", .num 1421337566), ("hostname", .str "myhost"),
         ("message", .str "hello"), ("category", .str "syslog"),
         ("appname", .str "test"), ("logLevel", .str "NOTICE")]
        "timestamp" = some (.num 1421337566) := by
  have h := C8_syslog_normalization
    [("timestamp", .dt ⟨2015, 1, 15, 16, 59, 26, 60⟩),
     ("severity", .str "notice"), ("tag", .str "test"),
     ("hostname", .str "myhost"), ("message", .str "hello")] []
    [("timestamp", .num 1421337566), ("hostname", .str "myhost"),
     ("message", .str "hello"), ("category", .str "syslog"),
     ("appname", .str "test"), ("logLevel", .str "NOTICE")]
    (by rfl)
  refine ⟨by rfl, (h.2.1 "notice" "NOTICE" (by rfl) (by rfl)).1,
    (h.1 (.str "test") (by rfl)).1, h.2.2.2.1 (by rfl), ?_⟩
  have := h.2.2.2.2.2 ⟨2015, 1, 15, 16, 59, 26, 60⟩ (by rfl)
  simpa using this

/-- Counterexample to C6: a well-formed native datagram whose JSON body
has no `timestamp` is dispatched without a `timestamp` field — neither
ingress populates it. -/
theorem C6_counterexample :
    datagramEvents loadsDemo "test_category:\tGOODBODY"
      = [[("key", .str "value"), ("category", .str "test_category")]] ∧
    Event.get?
        [("key", .str "value"), ("category", .str "test_category")]
        "timestamp" = none :=
  ⟨rfl, rfl⟩

/-- C6 as amended: an event leaving ingress has `timestamp` set exactly
when its source carried one — the native ingress dispatches `timestamp`
iff the decoded JSON body contains it, syslog parsing records
`timestamp` iff the timestamp group parsed, and syslog normalization
preserves `timestamp` presence. -/
theorem C6_amended_ingress_timestamp :
    (∀ (loads : String → Option Val) (datagram : String)
      (cat rest : List Char) (fields : List (String × Val)),
      splitFirstColon (pyRstrip datagram).data = some (cat, rest) →
      loads (String.mk rest) = some (.obj fields) →
      ∀ e, datagramReceived loads datagram = .ok e →
      Event.hasKey e "timestamp" = Event.hasKey fields "timestamp") ∧
    (∀ (line : String) (m : SyslogMatch)
      (ceeLoads : String → Option Val) (e : Event),
      m.cee = none →
      parseSyslog line (some m) ceeLoads = some e →
      Event.hasKey e "timestamp" = m.timestamp.isSome) ∧
    (∀ (ev : Event) (hostnames : List (String × String)) (out : Event),
      syslogToUDPLogEvent ev hostnames = some out →
      Event.hasKey out "timestamp" = Event.hasKey ev "timestamp") := by
  refine ⟨?_, ?_, ?_⟩
  · intro loads datagram cat rest fields hsplit hloads e he
    have hok : datagramReceived loads datagram
        = .ok (Event.set fields "category" (.str (String.mk cat))) := by
      simp [datagramReceived, unserialize, hsplit, hloads]
    rw [hok] at he
    simp only [Except.ok.injEq] at he
    rw [← he, Event.hasKey_eq_isSome, Event.hasKey_eq_isSome,
      Event.get?_set_ne _ _ _ _ (by decide)]
  · intro line m ceeLoads e hcee hparse
    cases hpp : parsePriority m.priority with
    | none =>
      cases hts : m.timestamp <;> cases hpid : m.pid <;>
        · simp only [parseSyslog, hpp, hcee, hts, hpid,
            Option.some.injEq] at hparse
          rw [← hparse]
          rfl
    | some fs =>
      obtain ⟨f, s⟩ := fs
      cases hts : m.timestamp <;> cases hpid : m.pid <;>
        · simp only [parseSyslog, hpp, hcee, hts, hpid,
            Option.some.injEq] at hparse
          rw [← hparse]
          rfl
  · intro ev hostnames out hout
    unfold syslogToUDPLogEvent at hout
    cases hts : tsConvert ev with
    | none => rw [hts] at hout; simp at hout
    | some e1 =>
      rw [hts] at hout
      simp only at hout
      cases hsev : sevRename (tagRename
          (Event.setdefault e1 "category" (.str "syslog"))) with
      | none => rw [hsev] at hout; simp at hout
      | some e4 =>
        rw [hsev] at hout
        simp only [Option.some.injEq] at hout
        rw [← hout,
          hostRewrite_hasKey_ne hostnames e4 "timestamp" (by decide),
          sevRename_hasKey_ne _ e4 hsev "timestamp" (by decide)
            (by decide),
          tagRename_hasKey_ne _ "timestamp" (by decide) (by decide),
          Event.hasKey_setdefault_ne e1 "category" _ "timestamp"
            (by decide),
          tsConvert_hasKey ev e1 hts "timestamp"]

/-- Witness for the amended C6 at concrete native and syslog inputs. -/
theorem C6_amended_witness :
    Event.hasKey
        [("key", .str "value"), ("category", .str "test_category")]
        "timestamp" = false ∧
    Event.hasKey [("key", .str "value")] "timestamp" = false ∧
    syslogToUDPLogEvent [("timestamp", .dt ⟨2015, 1, 15, 15, 59, 26, 0⟩)]
        []
      = some [("timestamp", .num 1421337566),
              ("category", .str "syslog")] ∧
    Event.hasKey
        [("timestamp", .num 1421337566), ("category", .str "syslog")]
        "timestamp" = true := by
  have h1 := C6_amended_ingress_timestamp.1 loadsDemo
    "test_category:\tGOODBODY" "test_category".data "\tGOODBODY".data
    [("key", .str "value")] (by rfl) (by rfl)
    [("key", .str "value"), ("category", .str "test_category")] (by rfl)
  have h3 := C6_amended_ingress_timestamp.2.2
    [("timestamp", .dt ⟨2015, 1, 15, 15, 59, 26, 0⟩)] []
    [("timestamp", .num 1421337566), ("category", .str "syslog")]
    (by rfl)
  exact ⟨h1.trans (by rfl), by rfl, by rfl, h3.trans (by rfl)⟩

theorem foldSetKeys_get_not_mem (eventDict : Event)
    (keys : List String) (acc : Event) (k : String)
    (hk : ¬ k ∈ keys) :
    Event.get? (List.foldl (fun acc key =>
        match Event.get? eventDict key with
        | some v => Event.set acc key v
        | none => acc) acc keys) k
      = Event.get? acc k := by
  induction keys generalizing acc with
  | nil => rfl
  | cons key keys ih =>
    have hne : k ≠ key := fun h => hk (h ▸ List.mem_cons_self key keys)
    have hnk : ¬ k ∈ keys := fun h => hk (List.mem_cons_of_mem key h)
    rw [List.foldl_cons, ih _ hnk]
    cases hv : Event.get? eventDict key with
    | none => rfl
    | some v => exact Event.get?_set_ne acc key k v hne

theorem foldSetKeys_get_mem (eventDict : Event) (keys : List String)
    (acc : Event) (k : String) (v : Val) (hk : k ∈ keys)
    (hnd : keys.Nodup) (hv : Event.get? eventDict k = some v) :
    Event.get? (List.foldl (fun acc key =>
        match Event.get? eventDict key with
        | some v => Event.set acc key v
        | none => acc) acc keys) k
      = some v := by
  induction keys generalizing acc with
  | nil => cases hk
  | cons key keys ih =>
    rw [List.foldl_cons]
    rcases List.mem_cons.mp hk with heq | hmem
    · subst heq
      have hnk : ¬ k ∈ keys := (List.nodup_cons.mp hnd).1
      rw [foldSetKeys_get_not_mem eventDict keys _ k hnk, hv,
        Event.get?_set_self]
    · exact ih _ hmem (List.nodup_cons.mp hnd).2

theorem origFold_get_not_mem (eventDict acc : Event) (k : String)
    (hk : ¬ k ∈ origKeys) :
    Event.get? (origFold eventDict acc) k = Event.get? acc k :=
  foldSetKeys_get_not_mem eventDict origKeys acc k hk

theorem origFold_get_mem (eventDict acc : Event) (k : String) (v : Val)
    (hk : k ∈ origKeys) (hv : Event.get? eventDict k = some v) :
    Event.get? (origFold eventDict acc) k = some v :=
  foldSetKeys_get_mem eventDict origKeys acc k v hk (by decide) hv

theorem trimmedMessage_spec (text : String)
    (hlen : MAX_TRIMMED_MESSAGE_SIZE < text.length) :
    (trimmedMessage text).length = MAX_TRIMMED_MESSAGE_SIZE ∧
    (trimmedMessage text).data.drop (MAX_TRIMMED_MESSAGE_SIZE - 4)
      = "[..]".data := by
  have hdl : text.data.length = text.length := String.length_data text
  have htake : (text.data.take (MAX_TRIMMED_MESSAGE_SIZE - 4)).length
      = MAX_TRIMMED_MESSAGE_SIZE - 4 := by
    rw [List.length_take]
    simp only [MAX_TRIMMED_MESSAGE_SIZE] at hlen ⊢
    omega
  constructor
  · show (String.mk (text.data.take (MAX_TRIMMED_MESSAGE_SIZE - 4)
        ++ "[..]".data)).length = MAX_TRIMMED_MESSAGE_SIZE
    rw [String.mk_length, List.length_append, htake]
    rfl
  · show (text.data.take (MAX_TRIMMED_MESSAGE_SIZE - 4)
        ++ "[..]".data).drop (MAX_TRIMMED_MESSAGE_SIZE - 4)
      = "[..]".data
    rw [List.drop_append_eq_append_drop, htake,
      List.drop_eq_nil_of_le (le_of_eq htake), Nat.sub_self,
      List.drop_zero, List.nil_append]


theorem msgTrimStep_absent (eventDict top original : Event)
    (h : Event.hasKey eventDict "message" = false) :
    msgTrimStep eventDict top original = some (top, original) := by
  simp [msgTrimStep, h]

theorem msgTrimStep_long (eventDict top original : Event)
    (text : String)
    (hm : Event.get? eventDict "message" = some (.str text))
    (hl : MAX_TRIMMED_MESSAGE_SIZE < text.length) :
    msgTrimStep eventDict top original
      = some (Event.set top "original_message_size" (.num text.length),
              Event.set original "message"
                (.str (trimmedMessage text))) := by
  have hk : Event.hasKey eventDict "message" = true := by
    simp [Event.hasKey_eq_isSome, hm]
  simp [msgTrimStep, hk, hm, hl]

theorem msgTrimStep_short (eventDict top original : Event)
    (text : String)
    (hm : Event.get? eventDict "message" = some (.str text))
    (hl : ¬ MAX_TRIMMED_MESSAGE_SIZE < text.length) :
    msgTrimStep eventDict top original
      = some (top, Event.set original "message" (.str text)) := by
  have hk : Event.hasKey eventDict "message" = true := by
    simp [Event.hasKey_eq_isSome, hm]
  simp [msgTrimStep, hk, hm, hl]

/-- C4: when the serialized send fails, `UDPLogger.log` emits a
meta-event under the reserved category `udplog` containing
`logLevel=WARNING`, the exception triple, `original_size` equal to the
length of the original serialized datagram, and an `original`
sub-object with the original category and timestamp, the originals of
the eight preserved keys when present, and the message trimmed to
exactly `MAX_TRIMMED_MESSAGE_SIZE = 200` characters ending in `[..]`
when longer than that. -/
theorem C4_send_failure_meta_event (dumps : Event → String) (now : Val)
    (defaultFields : Event) (sendOk : String → Bool)
    (failure : PyFailure) (category : String) (eventDict : Event)
    (meta : Event) (ts : Val)
    (hts : Event.get? (UDPLogger.augment now defaultFields eventDict)
        "timestamp" = some ts)
    (hfail : sendOk (UDPLogger.serialize dumps category
        (UDPLogger.augment now defaultFields eventDict)) = false)
    (hmeta : serializeFailureEvent category
        (UDPLogger.augment now defaultFields eventDict)
        (UDPLogger.serialize dumps category
          (UDPLogger.augment now defaultFields eventDict)).length
        failure (some "Failed to send udplog message") = some meta) :
    UDPLogger.log dumps now defaultFields sendOk failure category
        eventDict
      = (if sendOk (UDPLogger.serialize dumps "udplog" meta)
          then LogOutcome.meta (UDPLogger.serialize dumps "udplog" meta)
          else LogOutcome.stderrFallback) ∧
    UDPLogger.serializeFailure dumps category
        (UDPLogger.augment now defaultFields eventDict)
        (UDPLogger.serialize dumps category
          (UDPLogger.augment now defaultFields eventDict)).length
        failure (some "Failed to send udplog message")
      = some (UDPLogger.serialize dumps "udplog" meta) ∧
    Event.get? meta "logLevel" = some (.str "WARNING") ∧
    Event.get? meta "excType" = some (.str failure.excType) ∧
    Event.get? meta "excValue" = some (.str failure.excValue) ∧
    Event.get? meta "excText" = some (.str failure.excText) ∧
    Event.get? meta "original_size"
      = some (.num (UDPLogger.serialize dumps category
          (UDPLogger.augment now defaultFields eventDict)).length) ∧
    (∀ ofs, Event.get? meta "original" = some (.obj ofs) →
      Event.get? ofs "category" = some (.str category) ∧
      Event.get? ofs "timestamp" = some ts ∧
      (∀ k, k ∈ origKeys → ∀ v,
        Event.get? (UDPLogger.augment now defaultFields eventDict) k
          = some v → Event.get? ofs k = some v) ∧
      (∀ text,
        Event.get? (UDPLogger.augment now defaultFields eventDict)
          "message" = some (.str text) →
        MAX_TRIMMED_MESSAGE_SIZE < text.length →
        Event.get? ofs "message"
          = some (.str (trimmedMessage text)) ∧
        (trimmedMessage text).length = MAX_TRIMMED_MESSAGE_SIZE ∧
        (trimmedMessage text).data.drop (MAX_TRIMMED_MESSAGE_SIZE - 4)
          = "[..]".data)) := by
  refine ⟨?_, ?_, ?_⟩
  · simp only [UDPLogger.log, UDPLogger.serializeFailure, hmeta, hfail,
      Bool.false_eq_true, if_false]
    rfl
  · simp only [UDPLogger.serializeFailure, hmeta]
    rfl
  unfold serializeFailureEvent at hmeta
  rw [hts] at hmeta
  simp only at hmeta
  cases hmk : Event.hasKey (UDPLogger.augment now defaultFields
      eventDict) "message" with
  | false =>
    rw [msgTrimStep_absent _ _ _ hmk] at hmeta
    simp only [Option.some.injEq] at hmeta
    refine ⟨by rw [← hmeta]; rfl, by rw [← hmeta]; rfl,
      by rw [← hmeta]; rfl, by rw [← hmeta]; rfl,
      by rw [← hmeta]; rfl, ?_⟩
    intro ofs hofs
    rw [← hmeta,
      Event.get?_set_ne _ "original_size" "original" _ (by decide),
      Event.get?_set_self] at hofs
    simp only [Option.some.injEq, Val.obj.injEq] at hofs
    subst hofs
    refine ⟨?_, ?_, ?_, ?_⟩
    · rw [origFold_get_not_mem _ _ "category" (by decide)]
      rfl
    · rw [origFold_get_not_mem _ _ "timestamp" (by decide)]
      rfl
    · intro k hk v hv
      exact origFold_get_mem _ _ k v hk hv
    · intro text hmsg hlen
      have hcontra := hmk
      rw [Event.hasKey_eq_isSome, hmsg] at hcontra
      simp at hcontra
  | true =>
    cases hmg : Event.get? (UDPLogger.augment now defaultFields
        eventDict) "message" with
    | none =>
      have hcontra := hmk
      rw [Event.hasKey_eq_isSome, hmg] at hcontra
      simp at hcontra
    | some v =>
      cases v with
      | null => simp [msgTrimStep, hmk, hmg] at hmeta
      | bool b => simp [msgTrimStep, hmk, hmg] at hmeta
      | num n => simp [msgTrimStep, hmk, hmg] at hmeta
      | arr l => simp [msgTrimStep, hmk, hmg] at hmeta
      | obj f => simp [msgTrimStep, hmk, hmg] at hmeta
      | dt d => simp [msgTrimStep, hmk, hmg] at hmeta
      | str text =>
        by_cases hlen : MAX_TRIMMED_MESSAGE_SIZE < text.length
        · rw [msgTrimStep_long _ _ _ text hmg hlen] at hmeta
          simp only [Option.some.injEq] at hmeta
          refine ⟨by rw [← hmeta]; rfl, by rw [← hmeta]; rfl,
            by rw [← hmeta]; rfl, by rw [← hmeta]; rfl,
            by rw [← hmeta]; rfl, ?_⟩
          intro ofs hofs
          rw [← hmeta,
            Event.get?_set_ne _ "original_size" "original" _ (by decide),
            Event.get?_set_self] at hofs
          simp only [Option.some.injEq, Val.obj.injEq] at hofs
          subst hofs
          refine ⟨?_, ?_, ?_, ?_⟩
          · rw [origFold_get_not_mem _ _ "category" (by decide)]
            rfl
          · rw [origFold_get_not_mem _ _ "timestamp" (by decide)]
            rfl
          · intro k hk v hv
            exact origFold_get_mem _ _ k v hk hv
          · intro text2 hmsg2 hlen2
            simp only [Option.some.injEq, Val.str.injEq] at hmsg2
            subst hmsg2
            refine ⟨?_, (trimmedMessage_spec text hlen).1,
              (trimmedMessage_spec text hlen).2⟩
            rw [origFold_get_not_mem _ _ "message" (by decide),
              Event.get?_set_self]
        · rw [msgTrimStep_short _ _ _ text hmg hlen] at hmeta
          simp only [Option.some.injEq] at hmeta
          refine ⟨by rw [← hmeta]; rfl, by rw [← hmeta]; rfl,
            by rw [← hmeta]; rfl, by rw [← hmeta]; rfl,
            by rw [← hmeta]; rfl, ?_⟩
          intro ofs hofs
          rw [← hmeta,
            Event.get?_set_ne _ "original_size" "original" _ (by decide),
            Event.get?_set_self] at hofs
          simp only [Option.some.injEq, Val.obj.injEq] at hofs
          subst hofs
          refine ⟨?_, ?_, ?_, ?_⟩
          · rw [origFold_get_not_mem _ _ "category" (by decide)]
            rfl
          · rw [origFold_get_not_mem _ _ "timestamp" (by decide)]
            rfl
          · intro k hk v hv
            exact origFold_get_mem _ _ k v hk hv
          · intro text2 hmsg2 hlen2
            simp only [Option.some.injEq, Val.str.injEq] at hmsg2
            subst hmsg2
            exact absurd hlen2 hlen

set_option maxRecDepth 40000 in
/-- Witness for C4 at a concrete failed send of a 204-character
message. -/
theorem C4_witness :
    serializeFailureEvent "atest"
        (UDPLogger.augment (.num 5) [] demoEventDict)
        (UDPLogger.serialize demoDumps "atest"
          (UDPLogger.augment (.num 5) [] demoEventDict)).length
        demoFailure (some "Failed to send udplog message")
      = some demoMeta ∧
    Event.get? demoMeta "logLevel" = some (.str "WARNING") ∧
    Event.get? demoMeta "excType" = some (.str "socket.error") ∧
    Event.get? demoMeta "original_size" = some (.num 8) ∧
    Event.get? demoMeta "original" = some (.obj demoOrig) ∧
    Event.get? demoOrig "category" = some (.str "atest") ∧
    Event.get? demoOrig "timestamp" = some (.num 5) ∧
    Event.get? demoOrig "logLevel" = some (.str "ERROR") ∧
    Event.get? demoOrig "message"
      = some (.str (trimmedMessage demoLongText)) ∧
    (trimmedMessage demoLongText).length = 200 ∧
    (trimmedMessage demoLongText).data.drop 196 = "[..]".data := by
  have h := C4_send_failure_meta_event demoDumps (.num 5) []
    (fun _ => false) demoFailure "atest" demoEventDict demoMeta
    (.num 5) (by rfl) (by rfl) (by rfl)
  have horig := h.2.2.2.2.2.2.2 demoOrig (by rfl)
  have htrim := horig.2.2.2 demoLongText (by rfl) (by decide)
  exact ⟨by rfl, h.2.2.1, h.2.2.2.1,
    h.2.2.2.2.2.2.1.trans (by rfl), by rfl, horig.1, horig.2.1,
    horig.2.2.1 "logLevel" (by decide) (.str "ERROR") (by rfl),
    htrim.1, htrim.2.1, htrim.2.2⟩

/-- C5: `lpush` fails with `NoClientError` on an empty live set; picks
a member of the set and attempts the push; on a missing client or the
`Not connected` signal it removes the factory from the live set,
attaches a reconnect callback that re-inserts it on the next successful
connection, and retries from the beginning; any other error surfaces to
the caller. -/
theorem C5_redis_lpush (attempt : Nat → ClientResult)
    (pick : List Nat → Nat)
    (hpick : ∀ l : List Nat, l ≠ [] → pick l ∈ l) :
    (∀ s : RedisPushMultiClient, s.factories = [] →
      s.lpush attempt pick = (.error .noClientError, s)) ∧
    (∀ s : RedisPushMultiClient, ¬ s.factories = [] →
      attempt (pick s.factories) = .success →
      s.lpush attempt pick = (.ok (pick s.factories), s)) ∧
    (∀ (s : RedisPushMultiClient) (e : String), ¬ s.factories = [] →
      attempt (pick s.factories) = .otherError e →
      s.lpush attempt pick = (.error (.runtimeError e), s)) ∧
    (∀ s : RedisPushMultiClient, s.factories.Nodup →
      ¬ s.factories = [] →
      (attempt (pick s.factories) = .missing ∨
       attempt (pick s.factories) = .notConnected) →
      s.lpush attempt pick
        = (s.disconnected (pick s.factories)).lpush attempt pick ∧
      ¬ pick s.factories
          ∈ (s.disconnected (pick s.factories)).factories ∧
      (s.disconnected (pick s.factories)).reconnectCallbacks
        = s.reconnectCallbacks ++ [pick s.factories]) ∧
    (∀ (s : RedisPushMultiClient) (f : Nat),
      f ∈ (s.reconnected f).factories) := by
  refine ⟨?_, ?_, ?_, ?_, ?_⟩
  · intro s hs
    rw [RedisPushMultiClient.lpush, hs]
    rfl
  · intro s hs hsucc
    rcases List.exists_cons_of_ne_nil hs with ⟨a, l, hl⟩
    have hlen : s.factories.length = l.length + 1 := by
      rw [hl]; rfl
    rw [RedisPushMultiClient.lpush, hlen, lpushFuel, if_neg hs]
    simp only [hsucc]
  · intro s e hs herr
    rcases List.exists_cons_of_ne_nil hs with ⟨a, l, hl⟩
    have hlen : s.factories.length = l.length + 1 := by
      rw [hl]; rfl
    rw [RedisPushMultiClient.lpush, hlen, lpushFuel, if_neg hs]
    simp only [herr]
  · intro s hnd hs hfail
    have hmem : pick s.factories ∈ s.factories := hpick s.factories hs
    rcases List.exists_cons_of_ne_nil hs with ⟨a, l, hl⟩
    have hlen : s.factories.length = l.length + 1 := by
      rw [hl]; rfl
    have herase : (s.factories.erase (pick s.factories)).length
        = l.length := by
      rw [List.length_erase_of_mem hmem, hlen]
      omega
    refine ⟨?_, ?_, rfl⟩
    · have hstep : s.lpush attempt pick
          = lpushFuel attempt pick l.length
            (s.disconnected (pick s.factories)) := by
        rw [RedisPushMultiClient.lpush, hlen, lpushFuel, if_neg hs]
        rcases hfail with hm | hn
        · simp only [hm]
        · simp only [hn]
      rw [hstep, RedisPushMultiClient.lpush]
      show _ = lpushFuel attempt pick
        (s.factories.erase (pick s.factories)).length _
      rw [herase]
    · show ¬ pick s.factories ∈ s.factories.erase (pick s.factories)
      exact hnd.not_mem_erase
  · intro s f
    rw [RedisPushMultiClient.reconnected]
    by_cases h : f ∈ s.factories
    · rw [if_pos h]; exact h
    · rw [if_neg h]
      exact List.mem_append_right _ (List.mem_singleton.mpr rfl)

/-- Concrete attempt map and selector for the C5 witness. -/
def demoAttempt : Nat → ClientResult :=
  fun n => if n = 1 then .notConnected else .success

def demoPick : List Nat → Nat := fun l => l.headD 0

/-- Witness for C5: factory 1 is disconnected, the push retries and
lands on factory 2; the callback re-inserts factory 1. -/
theorem C5_witness :
    (RedisPushMultiClient.mk [] []).lpush demoAttempt demoPick
      = (.error .noClientError, RedisPushMultiClient.mk [] []) ∧
    (RedisPushMultiClient.mk [1, 2] []).lpush demoAttempt demoPick
      = (.ok 2, RedisPushMultiClient.mk [2] [1]) ∧
    ((RedisPushMultiClient.mk [1, 2] []).disconnected 1).factories
      = [2] ∧
    (RedisPushMultiClient.disconnected
        (RedisPushMultiClient.mk [1, 2] []) 1).reconnectCallbacks
      = [1] ∧
    1 ∈ ((RedisPushMultiClient.mk [2] [1]).reconnected 1).factories := by
  have hpick : ∀ l : List Nat, l ≠ [] → demoPick l ∈ l := by
    intro l hl
    cases l with
    | nil => exact absurd rfl hl
    | cons a t => exact List.mem_cons_self a t
  have h := C5_redis_lpush demoAttempt demoPick hpick
  have hd := h.2.2.2.1 (RedisPushMultiClient.mk [1, 2] [])
    (by decide) (by decide) (Or.inr rfl)
  have hb := h.2.1 (RedisPushMultiClient.mk [2] [1])
    (by decide) rfl
  refine ⟨h.1 _ rfl, ?_, rfl, rfl, h.2.2.2.2 _ 1⟩
  exact hd.1.trans hb

theorem ddTagsStep_tags (event e : Event)
    (h : ddTagsStep event = some e) :
    Event.hasKey e "tags" = true := by
  unfold ddTagsStep at h
  split at h
  · simp only [Option.some.injEq] at h
    rw [← h]
    assumption
  · split at h
    · cases h
    · simp only [Option.some.injEq] at h
      rw [← h, Event.hasKey_set]
      simp
  
theorem hasKey_if_set_self (e : Event) (k : String) (v : Val) :
    Event.hasKey (if Event.hasKey e k then e else Event.set e k v) k
      = true := by
  by_cases h : Event.hasKey e k = true
  · simp [h]
  · have h2 : Event.hasKey e k = false := by
      simpa using h
    simp [h2, Event.hasKey_set]

theorem hasKey_if_set_other (e : Event) (k k2 : String) (v : Val)
    (h : Event.hasKey e k = true) :
    Event.hasKey (if Event.hasKey e k2 then e else Event.set e k2 v) k
      = true := by
  by_cases h2 : Event.hasKey e k2 = true
  · simp [h2, h]
  · have h3 : Event.hasKey e k2 = false := by
      simpa using h2
    simp [h3, Event.hasKey_set, h]

/-- Counterexample to C7: the DataDog sink takes no copy — after
delivering an event that lacked `title`/`tags`, the caller's dict has
them set. -/
theorem C7_counterexample :
    DataDogPublisher.sendEvent ddDemoDumps ddDemoEvent
      = some ddDemoOut ∧
    Event.hasKey ddDemoEvent "title" = false ∧
    Event.hasKey ddDemoOut "title" = true ∧
    Event.get? ddDemoOut "title" = some (.str "test") ∧
    Event.hasKey ddDemoEvent "tags" = false ∧
    Event.hasKey ddDemoOut "tags" = true :=
  ⟨rfl, rfl, rfl, rfl, rfl, rfl⟩

/-- C7 as amended: the RabbitMQ and Scribe sinks mutate only a private
`copy.copy`, so the dispatched event is unchanged after delivery; the
DataDog sink mutates the dispatched event itself, leaving `tags`,
`title`, `priority` and `text` set on the caller's dict. -/
theorem C7_amended_sink_copies :
    (∀ (dumps : Event → String) (chan : Bool) (event : Event),
      (RabbitMQPublisher.sendEvent dumps chan event).2 = event) ∧
    (∀ (dumps : Event → Option String) (minLogLevel : Int)
      (event : Event),
      (ScribeProtocol.sendEvent dumps minLogLevel event).2 = event) ∧
    (∀ (dumps : Event → String) (event out : Event),
      DataDogPublisher.sendEvent dumps event = some out →
      Event.hasKey out "tags" = true ∧
      Event.hasKey out "title" = true ∧
      Event.hasKey out "priority" = true ∧
      Event.hasKey out "text" = true) := by
  refine ⟨?_, ?_, ?_⟩
  · intro dumps chan event
    rw [RabbitMQPublisher.sendEvent]
    split
    · rfl
    · split
      · rfl
      · rfl
  · intro dumps minLogLevel event
    rw [ScribeProtocol.sendEvent]
    split
    · rfl
    · split
      · rfl
      · cases hdm : dumps (Event.erase event "category") <;>
          simp [hdm]
  · intro dumps event out h
    unfold DataDogPublisher.sendEvent at h
    split at h
    · cases h
    · rename_i e heq
      simp only [Option.some.injEq] at h
      rw [← h]
      have htags := ddTagsStep_tags event e heq
      refine ⟨?_, ?_, ?_, ?_⟩
      · exact hasKey_if_set_other _ _ _ _
          (hasKey_if_set_other _ _ _ _
            (hasKey_if_set_other _ _ _ _ htags))
      · exact hasKey_if_set_other _ _ _ _
          (hasKey_if_set_other _ _ _ _
            (hasKey_if_set_self _ _ _))
      · exact hasKey_if_set_other _ _ _ _ (hasKey_if_set_self _ _ _)
      · exact hasKey_if_set_self _ _ _

/-- Witness for the amended C7 at concrete events. -/
theorem C7_amended_witness :
    (RabbitMQPublisher.sendEvent ddDemoDumps true
        [("timestamp", .num 1), ("message", .str "m")]).2
      = [("timestamp", .num 1), ("message", .str "m")] ∧
    (ScribeProtocol.sendEvent (fun _ => some "J") 20
        [("category", .str "test"), ("message", .str "m")]).2
      = [("category", .str "test"), ("message", .str "m")] ∧
    Event.hasKey ddDemoOut "tags" = true ∧
    Event.hasKey ddDemoOut "title" = true ∧
    Event.hasKey ddDemoOut "priority" = true ∧
    Event.hasKey ddDemoOut "text" = true := by
  have h := C7_amended_sink_copies
  have hdd := h.2.2 ddDemoDumps ddDemoEvent ddDemoOut (by rfl)
  exact ⟨h.1 ddDemoDumps true [("timestamp", .num 1),
      ("message", .str "m")],
    h.2.1 (fun _ => some "J") 20
      [("category", .str "test"), ("message", .str "m")],
    hdd.1, hdd.2.1, hdd.2.2.1, hdd.2.2.2⟩
